import Mathlib

/-!
Verification development for the ClearFine backend (Node.js/Express service).

The repository contains two near-duplicate revisions of `server.js`:
`src/server.js` and `src/unnamed/part_000`.  Both expose
`POST /api/appeal-check` (classify appeal strength via an upstream
completion provider and recover a JSON object from its free-text reply)
and `POST /api/extract-fine` (extract fine fields from an image, then
parse the provider's reply as JSON with per-field empty-string defaults).

This file gives a shallow embedding of the JSON-recovery and
normalisation logic of both revisions:
* a `Json` value model and JavaScript truthiness,
* an executable model of `JSON.parse` (objects, arrays, strings with
  escapes, integers, booleans, null; decimal fractions and exponents are
  not modelled — no claim depends on them),
* the `/\{[\s\S]*\}/` brace-span regex of `part_000`,
* the markdown-fence stripping of the extract-fine handlers,
* the recovery/fallback/validation blocks of both appeal handlers,
* the `createAppealPrompt` normaliser of `part_000`, and
* the response construction of the extract-fine handler of `server.js`.
-/

/-- Model of a JavaScript/JSON value (numbers restricted to integers,
which covers every value the claims mention). -/
inductive Json where
  | null
  | bool (b : Bool)
  | num (n : Int)
  | str (s : String)
  | arr (elems : List Json)
  | obj (fields : List (String × Json))

/-- JavaScript truthiness of a value: `0`, `""`, `false`, `null` are
falsy; every object and array is truthy. -/
def truthy : Json → Bool
  | Json.null => false
  | Json.bool b => b
  | Json.num n => n != 0
  | Json.str s => s != ""
  | Json.arr _ => true
  | Json.obj _ => true

/-- Association lookup where the LAST binding of a key wins, matching
how `JSON.parse` resolves duplicate keys in a JavaScript object. -/
def lookupLast (kvs : List (String × Json)) (k : String) : Option Json :=
  match kvs with
  | [] => none
  | (k', v) :: rest =>
    match lookupLast rest k with
    | some w => some w
    | none => if k' = k then some v else none

/-- JavaScript property access `v.k`: `undefined` (here `none`) on
non-objects and missing keys.  (Property access on `null` would throw in
JavaScript; the handlers only reach it with truthy values, where the two
semantics agree.) -/
def jsGet (v : Json) (k : String) : Option Json :=
  match v with
  | Json.obj kvs => lookupLast kvs k
  | _ => none

/-- Truthiness of a possibly-`undefined` value (`undefined` is falsy). -/
def jsTruthyOpt : Option Json → Bool
  | none => false
  | some v => truthy v

/-- JavaScript `a || b` where `a` may be `undefined`. -/
def jsOr (a : Option Json) (b : Json) : Json :=
  match a with
  | none => b
  | some v => if truthy v then v else b

/-- The double-quote character. -/
def quoteChar : Char := Char.ofNat 34

/-- The backtick character (used by markdown code fences). -/
def backtickChar : Char := Char.ofNat 96

/-- JSON insignificant whitespace. -/
def isJsonWs (c : Char) : Bool := c = ' ' || c = '\t' || c = '\n' || c = '\r'

/-- Drop leading JSON whitespace. -/
def skipWs : List Char → List Char
  | [] => []
  | c :: cs => if isJsonWs c then skipWs cs else c :: cs

/-- Decimal digit value of a character, if any. -/
def digitVal? (c : Char) : Option Nat :=
  if 48 ≤ c.toNat ∧ c.toNat ≤ 57 then some (c.toNat - 48) else none

/-- Does the list start with a decimal digit? -/
def headIsDigit : List Char → Bool
  | [] => false
  | c :: _ => (digitVal? c).isSome

/-- Consume a maximal run of digits, folding them onto an accumulator. -/
def parseDigitsAux : List Char → Nat → Nat × List Char
  | [], acc => (acc, [])
  | c :: cs, acc =>
    match digitVal? c with
    | some d => parseDigitsAux cs (acc * 10 + d)
    | none => (acc, c :: cs)

/-- Parse a nonempty digit run as a natural number. -/
def parseNatNum (cs : List Char) : Option (Nat × List Char) :=
  if headIsDigit cs then some (parseDigitsAux cs 0) else none

/-- Parse a JSON integer (optional minus sign followed by digits). -/
def parseNumber (cs : List Char) : Option (Json × List Char) :=
  match cs with
  | [] => none
  | c :: rest =>
    if c = '-' then
      match parseNatNum rest with
      | some (n, r) => some (Json.num (-(n : Int)), r)
      | none => none
    else
      match parseNatNum cs with
      | some (n, r) => some (Json.num (n : Int), r)
      | none => none

/-- Hexadecimal digit value of a character, if any. -/
def hexVal? (c : Char) : Option Nat :=
  if 48 ≤ c.toNat ∧ c.toNat ≤ 57 then some (c.toNat - 48)
  else if 97 ≤ c.toNat ∧ c.toNat ≤ 102 then some (c.toNat - 87)
  else if 65 ≤ c.toNat ∧ c.toNat ≤ 70 then some (c.toNat - 55)
  else none

/-- Parse the body of a JSON string literal (after the opening quote),
returning the decoded characters and the remainder after the closing
quote.  Handles the standard escapes and `\uXXXX`; raw control
characters are rejected as in RFC 8259 / `JSON.parse`. -/
def parseStrAux : List Char → Option (List Char × List Char)
  | [] => none
  | c :: cs =>
    if c = quoteChar then some ([], cs)
    else if c = '\\' then
      match cs with
      | [] => none
      | e :: cs2 =>
        if e = quoteChar then (fun p => (quoteChar :: p.1, p.2)) <$> parseStrAux cs2
        else if e = '\\' then (fun p => ('\\' :: p.1, p.2)) <$> parseStrAux cs2
        else if e = '/' then (fun p => ('/' :: p.1, p.2)) <$> parseStrAux cs2
        else if e = 'n' then (fun p => ('\n' :: p.1, p.2)) <$> parseStrAux cs2
        else if e = 't' then (fun p => ('\t' :: p.1, p.2)) <$> parseStrAux cs2
        else if e = 'r' then (fun p => ('\r' :: p.1, p.2)) <$> parseStrAux cs2
        else if e = 'b' then (fun p => (Char.ofNat 8 :: p.1, p.2)) <$> parseStrAux cs2
        else if e = 'f' then (fun p => (Char.ofNat 12 :: p.1, p.2)) <$> parseStrAux cs2
        else if e = 'u' then
          match cs2 with
          | h1 :: h2 :: h3 :: h4 :: cs3 =>
            match hexVal? h1, hexVal? h2, hexVal? h3, hexVal? h4 with
            | some a, some b, some c2, some d =>
              (fun p => (Char.ofNat (((a * 16 + b) * 16 + c2) * 16 + d) :: p.1, p.2)) <$>
                parseStrAux cs3
            | _, _, _, _ => none
          | _ => none
        else none
    else if c.toNat < 32 then none
    else (fun p => (c :: p.1, p.2)) <$> parseStrAux cs

mutual

/-- Fueled recursive-descent JSON value parser (model of the grammar
accepted by `JSON.parse`).  Fuel only bounds nesting, never string or
digit length, and `jsonParseL` supplies more than enough of it. -/
def parseVal : Nat → List Char → Option (Json × List Char)
  | 0, _ => none
  | fuel + 1, cs =>
    match skipWs cs with
    | [] => none
    | c :: rest =>
      if c = quoteChar then
        (fun p => (Json.str (String.mk p.1), p.2)) <$> parseStrAux rest
      else if c = '{' then
        match skipWs rest with
        | [] => none
        | c2 :: rest2 =>
          if c2 = '}' then some (Json.obj [], rest2)
          else parseMembers fuel (c2 :: rest2)
      else if c = '[' then
        match skipWs rest with
        | [] => none
        | c2 :: rest2 =>
          if c2 = ']' then some (Json.arr [], rest2)
          else parseElements fuel (c2 :: rest2)
      else if c = 't' then
        match rest with
        | 'r' :: 'u' :: 'e' :: rest2 => some (Json.bool true, rest2)
        | _ => none
      else if c = 'f' then
        match rest with
        | 'a' :: 'l' :: 's' :: 'e' :: rest2 => some (Json.bool false, rest2)
        | _ => none
      else if c = 'n' then
        match rest with
        | 'u' :: 'l' :: 'l' :: rest2 => some (Json.null, rest2)
        | _ => none
      else parseNumber (c :: rest)

/-- Parse the members of a JSON object after its opening brace. -/
def parseMembers : Nat → List Char → Option (Json × List Char)
  | 0, _ => none
  | fuel + 1, cs =>
    match skipWs cs with
    | [] => none
    | c :: rest =>
      if c = quoteChar then
        match parseStrAux rest with
        | none => none
        | some (key, rest2) =>
          match skipWs rest2 with
          | [] => none
          | c2 :: rest3 =>
            if c2 = ':' then
              match parseVal fuel rest3 with
              | none => none
              | some (v, rest4) =>
                match skipWs rest4 with
                | [] => none
                | c3 :: rest5 =>
                  if c3 = ',' then
                    match parseMembers fuel rest5 with
                    | some (Json.obj ms, rest6) =>
                      some (Json.obj ((String.mk key, v) :: ms), rest6)
                    | _ => none
                  else if c3 = '}' then some (Json.obj [(String.mk key, v)], rest5)
                  else none
            else none
      else none

/-- Parse the elements of a JSON array after its opening bracket. -/
def parseElements : Nat → List Char → Option (Json × List Char)
  | 0, _ => none
  | fuel + 1, cs =>
    match parseVal fuel cs with
    | none => none
    | some (v, rest) =>
      match skipWs rest with
      | [] => none
      | c :: rest2 =>
        if c = ',' then
          match parseElements fuel rest2 with
          | some (Json.arr vs, rest3) => some (Json.arr (v :: vs), rest3)
          | _ => none
        else if c = ']' then some (Json.arr [v], rest2)
        else none

end

/-- Model of `JSON.parse` on character lists: parse one value and require
the remainder to be whitespace, otherwise fail (JS throws). -/
def jsonParseL (cs : List Char) : Option Json :=
  match parseVal (cs.length + 1) cs with
  | some (v, rest) => if skipWs rest = [] then some v else none
  | none => none

/-- Model of `JSON.parse` on strings. -/
def jsonParse (s : String) : Option Json := jsonParseL s.data

/-- The decimal digit character for `n < 10`. -/
def digitChar (n : Nat) : Char := Char.ofNat (48 + n)

/-- Decimal digits of a natural number, least significant first, with
structural fuel (so that the definition reduces definitionally; the
fuel in `natToRevDigits` always suffices). -/
def natToRevDigitsAux : Nat → Nat → List Char
  | 0, _ => []
  | fuel + 1, n =>
    if n < 10 then [digitChar n]
    else digitChar (n % 10) :: natToRevDigitsAux fuel (n / 10)

/-- Decimal digits of a natural number, least significant first. -/
def natToRevDigits (n : Nat) : List Char := natToRevDigitsAux (n + 1) n

/-- Decimal digits of a natural number, most significant first. -/
def natDigits (n : Nat) : List Char := (natToRevDigits n).reverse

/-- Decimal rendering of an integer, as JavaScript prints integers. -/
def intDigitsL (n : Int) : List Char :=
  if n < 0 then '-' :: natDigits n.natAbs else natDigits n.toNat

/-- Hexadecimal digit character (lowercase letters). -/
def hexDigitChar (n : Nat) : Char :=
  if n < 10 then Char.ofNat (48 + n) else Char.ofNat (87 + n)

/-- JSON string escaping of one character, as `JSON.stringify` emits it:
quote, backslash and the named control escapes, `\u00XX` for the other
control characters, and every other character verbatim. -/
def escapeChar (c : Char) : List Char :=
  if c = quoteChar then ['\\', quoteChar]
  else if c = '\\' then ['\\', '\\']
  else if c = '\n' then ['\\', 'n']
  else if c = '\r' then ['\\', 'r']
  else if c = '\t' then ['\\', 't']
  else if c = Char.ofNat 8 then ['\\', 'b']
  else if c = Char.ofNat 12 then ['\\', 'f']
  else if c.toNat < 32 then
    ['\\', 'u', '0', '0', hexDigitChar (c.toNat / 16), hexDigitChar (c.toNat % 16)]
  else [c]

/-- JSON string escaping of a character list. -/
def escBody : List Char → List Char
  | [] => []
  | c :: cs => escapeChar c ++ escBody cs

/-- A JSON string literal (quotes included) for an arbitrary string. -/
def jsonStrLitL (s : String) : List Char :=
  quoteChar :: escBody s.data ++ [quoteChar]

/-- The output contract of the appeal-assessment path (spec §3):
`appeal_strength`, `confidence_score`, `reasoning_summary`. -/
structure AppealAssessment where
  appeal_strength : String
  confidence_score : Int
  reasoning_summary : String

/-- A valid `AppealAssessment` per the spec's data model: strength is one
of the three enum values, the score is an integer in `0..100`, and the
summary is non-empty text. -/
def ValidAssessment (a : AppealAssessment) : Prop :=
  (a.appeal_strength = "strong" ∨ a.appeal_strength = "medium" ∨ a.appeal_strength = "weak")
  ∧ 0 ≤ a.confidence_score ∧ a.confidence_score ≤ 100
  ∧ a.reasoning_summary ≠ ""

/-- The `Json` object corresponding to an `AppealAssessment`. -/
def assessmentJson (a : AppealAssessment) : Json :=
  Json.obj [("appeal_strength", Json.str a.appeal_strength),
            ("confidence_score", Json.num a.confidence_score),
            ("reasoning_summary", Json.str a.reasoning_summary)]

/-- The member list of the serialized `AppealAssessment` (everything
between the braces). -/
def assessmentMidL (a : AppealAssessment) : List Char :=
  jsonStrLitL "appeal_strength" ++ ':' :: jsonStrLitL a.appeal_strength
    ++ ',' :: jsonStrLitL "confidence_score" ++ ':' :: intDigitsL a.confidence_score
    ++ ',' :: jsonStrLitL "reasoning_summary" ++ ':' :: jsonStrLitL a.reasoning_summary

/-- The canonical JSON serialization of an `AppealAssessment`
(key order as declared, no insignificant whitespace), character list. -/
def stringifyAssessmentL (a : AppealAssessment) : List Char :=
  '{' :: assessmentMidL a ++ ['}']

/-- The canonical JSON serialization of an `AppealAssessment`. -/
def stringifyAssessment (a : AppealAssessment) : String :=
  String.mk (stringifyAssessmentL a)

/-- Drop characters until one satisfying `p` is found; return the suffix
starting at that character. -/
def dropUntil (p : Char → Bool) : List Char → Option (List Char)
  | [] => none
  | c :: cs => if p c then some (c :: cs) else dropUntil p cs

/-- Model of `text.match(/\{[\s\S]*\}/)` from `part_000` line 193: the
match, when it exists, runs from the first `{` of the text to the last
`}` after it (greedy `[\s\S]*`). -/
def braceSpanL (cs : List Char) : Option (List Char) :=
  match dropUntil (fun c => c = '{') cs with
  | none => none
  | some suff =>
    match dropUntil (fun c => c = '}') suff.reverse with
    | none => none
    | some revSpan => some revSpan.reverse

/-- String-level brace-span regex match. -/
def braceSpan (s : String) : Option String :=
  (braceSpanL s.data).map String.mk

/-- One left-to-right pass removing each occurrence of ```` ```json ````
followed by an optional newline: model of
`.replace(/```json\n?/g, '')` (server.js line 117 / part_000 line 106).
Structural fuel keeps the definition reducible; `stripJsonFenceL`
always supplies enough. -/
def stripJsonFenceAux : Nat → List Char → List Char
  | 0, cs => cs
  | fuel + 1, cs =>
    match cs with
    | c1 :: c2 :: c3 :: c4 :: c5 :: c6 :: c7 :: rest =>
      if c1 = backtickChar && c2 = backtickChar && c3 = backtickChar
          && c4 = 'j' && c5 = 's' && c6 = 'o' && c7 = 'n' then
        match rest with
        | c8 :: cs2 =>
          if c8 = '\n' then stripJsonFenceAux fuel cs2
          else stripJsonFenceAux fuel (c8 :: cs2)
        | [] => []
      else c1 :: stripJsonFenceAux fuel (c2 :: c3 :: c4 :: c5 :: c6 :: c7 :: rest)
    | c :: rest => c :: stripJsonFenceAux fuel rest
    | [] => []

/-- Remove every ```` ```json ```` fence (with optional newline). -/
def stripJsonFenceL (cs : List Char) : List Char :=
  stripJsonFenceAux (cs.length + 1) cs

/-- One left-to-right pass removing each occurrence of ```` ``` ````
followed by an optional newline: model of `.replace(/```\n?/g, '')`
(server.js line 118 / part_000 line 107). -/
def stripBareFenceAux : Nat → List Char → List Char
  | 0, cs => cs
  | fuel + 1, cs =>
    match cs with
    | c1 :: c2 :: c3 :: rest =>
      if c1 = backtickChar && c2 = backtickChar && c3 = backtickChar then
        match rest with
        | c4 :: cs2 =>
          if c4 = '\n' then stripBareFenceAux fuel cs2
          else stripBareFenceAux fuel (c4 :: cs2)
        | [] => []
      else c1 :: stripBareFenceAux fuel (c2 :: c3 :: rest)
    | c :: rest => c :: stripBareFenceAux fuel rest
    | [] => []

/-- Remove every bare ```` ``` ```` fence (with optional newline). -/
def stripBareFenceL (cs : List Char) : List Char :=
  stripBareFenceAux (cs.length + 1) cs

/-- Remove leading and trailing whitespace (model of `.trim()`). -/
def trimL (cs : List Char) : List Char :=
  ((cs.dropWhile isJsonWs).reverse.dropWhile isJsonWs).reverse

/-- The cleaning applied by both extract-fine handlers before
`JSON.parse` (server.js lines 116–119 / part_000 lines 105–108): strip
tagged fences, strip bare fences, trim. -/
def stripFences (s : String) : String :=
  String.mk (trimL (stripBareFenceL (stripJsonFenceL s.data)))

/-- The fallback object of `part_000` lines 207–211, substituted when
`JSON.parse` of the brace-span match throws. -/
def fallbackParse : Json :=
  Json.obj [("appeal_strength", Json.str "medium"),
            ("confidence_score", Json.num 50),
            ("reasoning_summary", Json.str "Unable to parse specific analysis, but medical emergencies usually constitute strong grounds for appeal.")]

/-- The fallback object of `part_000` lines 216–220, substituted when
the parsed object fails structure validation. -/
def fallbackStructure : Json :=
  Json.obj [("appeal_strength", Json.str "medium"),
            ("confidence_score", Json.num 50),
            ("reasoning_summary", Json.str "Response structure incomplete. Please review evidence.")]

/-- The fallback object of `server.js` lines 188–192, substituted when
`JSON.parse` of the raw response throws. -/
def fallbackServer : Json :=
  Json.obj [("appeal_strength", Json.str "medium"),
            ("confidence_score", Json.num 50),
            ("reasoning_summary", Json.str "Unable to analyze the appeal details properly. Please review your appeal reason and try again.")]

/-- The structure validation both revisions apply to the recovered
value: `appealAnalysis.appeal_strength`, `.confidence_score` and
`.reasoning_summary` must all be truthy (server.js line 196 / part_000
line 215). -/
def validStructure (v : Json) : Bool :=
  jsTruthyOpt (jsGet v "appeal_strength")
    && jsTruthyOpt (jsGet v "confidence_score")
    && jsTruthyOpt (jsGet v "reasoning_summary")

/-- The appeal-assessment recovery block of `part_000` lines 185–221:
match `/\{[\s\S]*\}/` against the response (throwing
`AI response format was invalid` when there is no match), `JSON.parse`
the match with `fallbackParse` on parse failure, then replace
structurally invalid results by `fallbackStructure`. -/
def appealRecoverP (text : String) : Except String Json :=
  match braceSpan text with
  | none => Except.error "AI response format was invalid"
  | some clean =>
    let analysis := (jsonParse clean).getD fallbackParse
    Except.ok (if validStructure analysis then analysis else fallbackStructure)

/-- The appeal-assessment recovery block of `server.js` lines 182–198:
`JSON.parse` the raw response with `fallbackServer` on parse failure,
then throw `Invalid response structure from AI` when the result fails
structure validation. -/
def appealRecoverS (text : String) : Except String Json :=
  let analysis := (jsonParse text).getD fallbackServer
  if validStructure analysis then Except.ok analysis
  else Except.error "Invalid response structure from AI"

/-- JavaScript `typeof v === 'string'`. -/
def typeofIsString : Json → Bool
  | Json.str _ => true
  | _ => false

/-- JavaScript `typeof v === 'object'` (arrays and `null` included). -/
def typeofIsObject : Json → Bool
  | Json.obj _ => true
  | Json.arr _ => true
  | Json.null => true
  | _ => false

/-- The appeal-reason normalisation of `part_000` lines 242–255:
produce `(userCategory, userSelectedReason, userAdditionalDetails)` from
a string or structured appeal reason. -/
def normalizeAppealReason (r : Json) : Json × Json × Json :=
  if typeofIsString r then (Json.str "General", r, Json.str "None provided")
  else if typeofIsObject r then
    (jsOr (jsGet r "category") (Json.str "General"),
     jsOr (jsGet r "selected_reason") (jsOr (jsGet r "reason") (Json.str "Unknown")),
     jsOr (jsGet r "user_note") (jsOr (jsGet r "personal_note") (Json.str "None provided")))
  else (Json.str "General", Json.str "Unknown", Json.str "None provided")

mutual

/-- String interpolation `${v}` of a value into a template literal.
(Arrays print their elements comma-separated; the JavaScript
corner cases `null`/`undefined` inside arrays print as empty strings in
JS but as their names here — no handler output depends on it.) -/
def jsToString : Json → String
  | Json.str s => s
  | Json.num n => String.mk (intDigitsL n)
  | Json.bool true => "true"
  | Json.bool false => "false"
  | Json.null => "null"
  | Json.obj _ => "[object Object]"
  | Json.arr xs => String.intercalate "," (jsToStringList xs)

/-- Interpolations of a list of values. -/
def jsToStringList : List Json → List String
  | [] => []
  | x :: xs => jsToString x :: jsToStringList xs

end

/-- The prompt builder `createAppealPrompt` of `part_000` lines 235–288:
map the fine-detail synonym keys, normalise the appeal reason, and
interpolate everything into the instruction template (trimmed). -/
def createAppealPrompt (fineDetails appealReason : Json) : String :=
  let fineReason := jsOr (jsGet fineDetails "reason")
    (jsOr (jsGet fineDetails "description") (jsOr (jsGet fineDetails "type") (Json.str "Unknown")))
  let fineDate := jsOr (jsGet fineDetails "date")
    (jsOr (jsGet fineDetails "time") (Json.str "Unknown"))
  let fineAmount := jsOr (jsGet fineDetails "amount") (Json.str "Unknown")
  let contraventionCode := jsOr (jsGet fineDetails "contravention_code") (Json.str "Not specified")
  let user := normalizeAppealReason appealReason
  String.mk (trimL (String.data (
    "\nPlease analyze this parking fine appeal case:\n\nFINE DETAILS:\n- Contravention Code: "
    ++ jsToString contraventionCode
    ++ "\n- Location: " ++ jsToString (jsOr (jsGet fineDetails "location") (Json.str "Unknown"))
    ++ "\n- Date: " ++ jsToString fineDate
    ++ "\n- Amount: " ++ jsToString fineAmount
    ++ "\n- Reason: " ++ jsToString fineReason
    ++ "\n\nAPPEAL REASON:\n- Category: " ++ jsToString user.1
    ++ "\n- Selected Reason: " ++ jsToString user.2.1
    ++ "\n- Additional Details: " ++ jsToString user.2.2
    ++ "\n\nPlease analyze the strength of this appeal and provide your assessment in the following JSON format:\n\x7b\n  \"appeal_strength\": \"strong|medium|weak\",\n  \"confidence_score\": 0-100,\n  \"reasoning_summary\": \"Brief explanation of your assessment (max 2 sentences)\"\n\x7d\n\nConsider factors such as:\n- Validity of the appeal reason\n- Strength of evidence that could be provided\n- Common success rates for similar appeals\n- Legal precedents and council policies\n- Whether the reason falls under accepted appeal categories\n\nRespond with only the JSON object, no additional text.\n  ")))

/-- The JSON body of a `POST /api/appeal-check` request: each field is
`none` when absent. -/
structure AppealRequestBody where
  fineDetails : Option Json
  appealReason : Option Json

/-- An HTTP response as produced by the handlers. -/
inductive HttpResult where
  | ok (body : Json)
  | badRequest (body : Json)
  | serverError (body : Json)

/-- The `POST /api/appeal-check` handler of `part_000` lines 136–232,
with the upstream completion call abstracted as a function from the
prompt to the returned text: validate presence of the two fields
(returning 400 before any upstream call), build the prompt, call the
provider, run the recovery block, and translate a thrown error into a
500 response. -/
def appealHandlerP (req : AppealRequestBody) (complete : String → String) : HttpResult :=
  if !(jsTruthyOpt req.fineDetails) || !(jsTruthyOpt req.appealReason) then
    HttpResult.badRequest (Json.obj
      [("error", Json.str "Missing required fields: fineDetails and appealReason are required")])
  else
    let prompt := createAppealPrompt (req.fineDetails.getD Json.null) (req.appealReason.getD Json.null)
    match appealRecoverP (complete prompt) with
    | Except.ok analysis => HttpResult.ok analysis
    | Except.error msg =>
      HttpResult.serverError (Json.obj
        [("error", Json.str "Failed to analyze appeal chances"), ("details", Json.str msg)])

/-- The six keys of `ExtractedFineData` produced by `server.js`
lines 127–137. -/
def extractKeys : List String :=
  ["fineAmount", "infractionDate", "locationAddress", "carRegistration",
   "fineReferenceNumber", "allegedContravention"]

/-- The response-data construction of the extract-fine handler
(`server.js` lines 127–137): each field is `extractedData.key || ""`,
independently of the others.  (The `part_000` revision builds the same
object without the `allegedContravention` field.) -/
def buildExtractData (d : Json) : Json :=
  Json.obj [("fineAmount", jsOr (jsGet d "fineAmount") (Json.str "")),
            ("infractionDate", jsOr (jsGet d "infractionDate") (Json.str "")),
            ("locationAddress", jsOr (jsGet d "locationAddress") (Json.str "")),
            ("carRegistration", jsOr (jsGet d "carRegistration") (Json.str "")),
            ("fineReferenceNumber", jsOr (jsGet d "fineReferenceNumber") (Json.str "")),
            ("allegedContravention", jsOr (jsGet d "allegedContravention") (Json.str ""))]

/-- The parse phase of the extract-fine handlers (server.js
lines 116–124): strip markdown fences, trim, and `JSON.parse` — there
is no further recovery step on this path. -/
def extractHandlerParse (text : String) : Option Json :=
  jsonParse (stripFences text)

/-- The extract-fine handler's response for a given upstream text:
a parse failure is thrown to the catch block (HTTP 500, `error:
"Failed to extract fine data"`); a parsed value yields the
`{success, data}` response with per-field defaults. -/
def extractRecover (text : String) : Except String Json :=
  match extractHandlerParse text with
  | none => Except.error "Failed to extract fine data"
  | some d => Except.ok (Json.obj [("success", Json.bool true), ("data", buildExtractData d)])

/-- Spec-order recovery algorithm, following the words of spec §4.2
steps 1–3 (for comparison with the implementations): strip fences, then
attempt a direct parse as a JSON object, and only if that fails parse
the first-`{`-to-last-`}` substring. -/
def specRecoverJson (text : String) : Option Json :=
  let stripped := stripFences text
  match jsonParse stripped with
  | some (Json.obj kvs) => some (Json.obj kvs)
  | _ =>
    match braceSpan stripped with
    | some span => jsonParse span
    | none => none

/-! ### Lemmas about the brace-span regex -/

lemma dropUntil_append (p : Char → Bool) (l r : List Char) (h : ∀ c ∈ l, p c = false) :
    dropUntil p (l ++ r) = dropUntil p r := by
  induction l with
  | nil => rfl
  | cons c cs ih =>
    have hc : p c = false := h c (by simp)
    simp only [List.cons_append, dropUntil, hc, Bool.false_eq_true, if_false]
    exact ih (fun d hd => h d (by simp [hd]))

lemma dropUntil_pos (p : Char → Bool) (c : Char) (cs : List Char) (h : p c = true) :
    dropUntil p (c :: cs) = some (c :: cs) := by
  simp [dropUntil, h]

/-- The regex `/\{[\s\S]*\}/` matches exactly the span from the first
`{` to the last `}` of a text that decomposes as `p ++ "{" ++ m ++ "}"
++ q` with no `{` in `p` and no `}` in `q`. -/
lemma braceSpanL_decompose (p q m : List Char) (hp : '{' ∉ p) (hq : '}' ∉ q) :
    braceSpanL (p ++ '{' :: m ++ '}' :: q) = some ('{' :: m ++ ['}']) := by
  have h1 : dropUntil (fun c => decide (c = '{')) (p ++ '{' :: m ++ '}' :: q)
      = some ('{' :: (m ++ '}' :: q)) := by
    rw [show p ++ '{' :: m ++ '}' :: q = p ++ ('{' :: (m ++ '}' :: q)) by simp]
    rw [dropUntil_append _ p _ (fun c hc => by
      simp only [decide_eq_false_iff_not]
      exact fun hce => hp (hce ▸ hc))]
    exact dropUntil_pos _ _ _ (by simp)
  have h2 : dropUntil (fun c => decide (c = '}')) (q.reverse ++ '}' :: (m.reverse ++ ['{']))
      = some ('}' :: (m.reverse ++ ['{'])) := by
    rw [dropUntil_append _ q.reverse _ (fun c hc => by
      simp only [decide_eq_false_iff_not]
      exact fun hce => hq (hce ▸ List.mem_reverse.mp hc))]
    exact dropUntil_pos _ _ _ (by simp)
  unfold braceSpanL
  rw [h1]
  simp [h2]

/-! ### Lemmas about decimal digits -/

lemma digitVal?_digitChar (n : Nat) (h : n < 10) : digitVal? (digitChar n) = some n := by
  interval_cases n <;> rfl

lemma natToRevDigitsAux_congr (n : Nat) : ∀ f₁ f₂, n < f₁ → n < f₂ →
    natToRevDigitsAux f₁ n = natToRevDigitsAux f₂ n := by
  induction n using Nat.strong_induction_on with
  | _ n ih =>
    intro f₁ f₂ h₁ h₂
    cases f₁ with
    | zero => omega
    | succ g₁ =>
      cases f₂ with
      | zero => omega
      | succ g₂ =>
        by_cases h : n < 10
        · simp [natToRevDigitsAux, h]
        · simp only [natToRevDigitsAux, h, if_false]
          have hdiv : n / 10 < n := Nat.div_lt_self (by omega) (by omega)
          rw [ih (n / 10) hdiv g₁ g₂ (by omega) (by omega)]

lemma natToRevDigits_lt (n : Nat) (h : n < 10) : natToRevDigits n = [digitChar n] := by
  simp [natToRevDigits, natToRevDigitsAux, h]

lemma natToRevDigits_ge (n : Nat) (h : ¬ n < 10) :
    natToRevDigits n = digitChar (n % 10) :: natToRevDigits (n / 10) := by
  have hd : n / 10 < n := Nat.div_lt_self (by omega) (by omega)
  have step : natToRevDigitsAux (n + 1) n
      = digitChar (n % 10) :: natToRevDigitsAux n (n / 10) := by
    rw [natToRevDigitsAux.eq_def]
    simp [h]
  rw [natToRevDigits, natToRevDigits, step]
  exact congrArg _ (natToRevDigitsAux_congr (n / 10) n (n / 10 + 1) (by omega) (by omega))

lemma digitVal?_bounds {c : Char} {k : Nat} (h : digitVal? c = some k) :
    48 ≤ c.toNat ∧ c.toNat ≤ 57 := by
  by_cases hb : 48 ≤ c.toNat ∧ c.toNat ≤ 57
  · exact hb
  · simp [digitVal?, hb] at h

lemma parseDigitsAux_notDigit (cs : List Char) (acc : Nat) (h : headIsDigit cs = false) :
    parseDigitsAux cs acc = (acc, cs) := by
  cases cs with
  | nil => rfl
  | cons c cs' =>
    cases hd : digitVal? c with
    | some d => simp [headIsDigit, hd] at h
    | none => simp [parseDigitsAux, hd]

lemma parseDigitsAux_natDigits (n : Nat) : ∀ acc rest,
    parseDigitsAux (natDigits n ++ rest) acc
      = parseDigitsAux rest (acc * 10 ^ (natDigits n).length + n) := by
  induction n using Nat.strong_induction_on with
  | _ n ih =>
    intro acc rest
    by_cases h : n < 10
    · rw [natDigits, natToRevDigits_lt n h]
      simp [parseDigitsAux, digitVal?_digitChar n h]
    · rw [natDigits, natToRevDigits_ge n h]
      simp only [List.reverse_cons]
      have hnd : (natToRevDigits (n / 10)).reverse = natDigits (n / 10) := rfl
      rw [List.append_assoc, hnd, ih (n / 10) (Nat.div_lt_self (by omega) (by omega))]
      simp only [List.singleton_append, parseDigitsAux,
        digitVal?_digitChar (n % 10) (Nat.mod_lt _ (by omega))]
      congr 1
      simp only [List.length_append, List.length_cons, List.length_nil]
      have h2 : n / 10 * 10 + n % 10 = n := by omega
      calc (acc * 10 ^ (natDigits (n / 10)).length + n / 10) * 10 + n % 10
          = acc * (10 ^ (natDigits (n / 10)).length * 10) + (n / 10 * 10 + n % 10) := by ring
        _ = acc * 10 ^ ((natDigits (n / 10)).length + 1) + n := by rw [h2, pow_succ]

lemma natToRevDigits_digits (n : Nat) : ∀ c ∈ natToRevDigits n, ∃ k, k < 10 ∧ c = digitChar k := by
  induction n using Nat.strong_induction_on with
  | _ n ih =>
    by_cases h : n < 10
    · rw [natToRevDigits_lt n h]
      intro c hc
      simp at hc
      exact ⟨n, h, hc⟩
    · rw [natToRevDigits_ge n h]
      intro c hc
      rcases List.mem_cons.mp hc with h1 | h2
      · exact ⟨n % 10, Nat.mod_lt _ (by omega), h1⟩
      · exact ih (n / 10) (Nat.div_lt_self (by omega) (by omega)) c h2

lemma natDigits_ne_nil (n : Nat) : natDigits n ≠ [] := by
  rw [natDigits]
  simp only [ne_eq, List.reverse_eq_nil_iff]
  by_cases h : n < 10
  · rw [natToRevDigits_lt n h]
    simp
  · rw [natToRevDigits_ge n h]
    simp

lemma headIsDigit_natDigits (n : Nat) (rest : List Char) :
    headIsDigit (natDigits n ++ rest) = true := by
  cases hnd : natDigits n with
  | nil => exact absurd hnd (natDigits_ne_nil n)
  | cons c cs =>
    have hc : c ∈ natToRevDigits n := by
      have hm : c ∈ natDigits n := by rw [hnd]; simp
      rw [natDigits] at hm
      exact List.mem_reverse.mp hm
    obtain ⟨k, hk, hck⟩ := natToRevDigits_digits n c hc
    simp [headIsDigit, hck, digitVal?_digitChar k hk]

lemma parseNatNum_natDigits (n : Nat) (rest : List Char) (h : headIsDigit rest = false) :
    parseNatNum (natDigits n ++ rest) = some (n, rest) := by
  rw [parseNatNum, if_pos (headIsDigit_natDigits n rest)]
  rw [parseDigitsAux_natDigits n 0 rest]
  rw [parseDigitsAux_notDigit rest _ h]
  simp

/-! ### Round trip of JSON string escaping -/

lemma hexVal?_hexDigitChar (n : Nat) (h : n < 16) : hexVal? (hexDigitChar n) = some n := by
  interval_cases n <;> rfl

lemma parseStrAux_escBody (s : List Char) : ∀ rest : List Char,
    parseStrAux (escBody s ++ quoteChar :: rest) = some (s, rest) := by
  induction s with
  | nil =>
    intro rest
    rw [show escBody [] ++ quoteChar :: rest = quoteChar :: rest by simp [escBody]]
    rw [parseStrAux.eq_def]
    simp
  | cons c cs ih =>
    intro rest
    simp only [escBody, List.append_assoc]
    by_cases h1 : c = quoteChar
    · subst h1
      rw [show escapeChar quoteChar = ['\\', quoteChar] by simp [escapeChar]]
      simp only [List.cons_append]
      rw [parseStrAux.eq_def]
      simp [quoteChar]
      exact ih rest
    · by_cases h2 : c = '\\'
      · subst h2
        rw [show escapeChar '\\' = ['\\', '\\'] by simp [escapeChar, quoteChar]]
        simp only [List.cons_append]
        rw [parseStrAux.eq_def]
        simp [quoteChar]
        exact ih rest
      · by_cases h3 : c = '\n'
        · subst h3
          rw [show escapeChar '\n' = ['\\', 'n'] by simp [escapeChar, quoteChar]]
          simp only [List.cons_append]
          rw [parseStrAux.eq_def]
          simp [quoteChar]
          exact ih rest
        · by_cases h4 : c = '\r'
          · subst h4
            rw [show escapeChar '\r' = ['\\', 'r'] by simp [escapeChar, quoteChar]]
            simp only [List.cons_append]
            rw [parseStrAux.eq_def]
            simp [quoteChar]
            exact ih rest
          · by_cases h5 : c = '\t'
            · subst h5
              rw [show escapeChar '\t' = ['\\', 't'] by simp [escapeChar, quoteChar]]
              simp only [List.cons_append]
              rw [parseStrAux.eq_def]
              simp [quoteChar]
              exact ih rest
            · by_cases h6 : c = Char.ofNat 8
              · subst h6
                rw [show escapeChar (Char.ofNat 8) = ['\\', 'b'] by simp [escapeChar, quoteChar]]
                simp only [List.cons_append]
                rw [parseStrAux.eq_def]
                simp [quoteChar]
                exact ih rest
              · by_cases h7 : c = Char.ofNat 12
                · subst h7
                  rw [show escapeChar (Char.ofNat 12) = ['\\', 'f'] by
                    simp [escapeChar, quoteChar]]
                  simp only [List.cons_append]
                  rw [parseStrAux.eq_def]
                  simp [quoteChar]
                  exact ih rest
                · by_cases h8 : c.toNat < 32
                  · have e1 : escapeChar c = ['\\', 'u', '0', '0',
                        hexDigitChar (c.toNat / 16), hexDigitChar (c.toNat % 16)] := by
                      simp [escapeChar, h1, h2, h3, h4, h5, h6, h7, h8]
                    rw [e1]
                    have hd1 : hexVal? (hexDigitChar (c.toNat / 16)) = some (c.toNat / 16) :=
                      hexVal?_hexDigitChar _ (by omega)
                    have hd2 : hexVal? (hexDigitChar (c.toNat % 16)) = some (c.toNat % 16) :=
                      hexVal?_hexDigitChar _ (Nat.mod_lt _ (by omega))
                    simp only [List.cons_append]
                    rw [parseStrAux.eq_def]
                    simp [quoteChar, hd1, hd2, ih, show hexVal? '0' = some 0 from rfl]
                    constructor
                    · exact ih rest
                    · rw [show c.toNat / 16 * 16 + c.toNat % 16 = c.toNat by omega]
                      exact Char.ofNat_toNat c
                  · have e2 : escapeChar c = [c] := by
                      simp [escapeChar, h1, h2, h3, h4, h5, h6, h7, h8]
                    rw [e2]
                    simp only [List.singleton_append]
                    rw [parseStrAux.eq_def]
                    simp [h1, h2, h8, ih]

/-! ### Parsing the serialized assessment -/

lemma skipWs_cons (c : Char) (cs : List Char) (h : isJsonWs c = false) :
    skipWs (c :: cs) = c :: cs := by
  rw [skipWs.eq_def]
  simp [h]

lemma skipWs_quote (X : List Char) : skipWs (quoteChar :: X) = quoteChar :: X :=
  skipWs_cons _ _ (by decide)

lemma skipWs_colon (X : List Char) : skipWs (':' :: X) = ':' :: X :=
  skipWs_cons _ _ (by decide)

lemma skipWs_comma (X : List Char) : skipWs (',' :: X) = ',' :: X :=
  skipWs_cons _ _ (by decide)

lemma skipWs_rbrace (X : List Char) : skipWs ('}' :: X) = '}' :: X :=
  skipWs_cons _ _ (by decide)

lemma skipWs_lbrace (X : List Char) : skipWs ('{' :: X) = '{' :: X :=
  skipWs_cons _ _ (by decide)

lemma jsonStrLitL_append (s : String) (X : List Char) :
    jsonStrLitL s ++ X = quoteChar :: (escBody s.data ++ quoteChar :: X) := by
  simp [jsonStrLitL]

lemma parseVal_strLit (g : Nat) (s : String) (rest : List Char) :
    parseVal (g + 1) (quoteChar :: (escBody s.data ++ quoteChar :: rest))
      = some (Json.str s, rest) := by
  rw [parseVal.eq_def]
  simp [skipWs_quote, parseStrAux_escBody, show String.mk s.data = s from rfl]

lemma char_ne_of_toNat {c : Char} {m : Nat} (hc : c.toNat ≠ m) (d : Char) (hd : d.toNat = m) :
    c ≠ d := fun he => hc (by rw [he, hd])

lemma isJsonWs_false_of_ge {c : Char} (h : 33 ≤ c.toNat) : isJsonWs c = false := by
  have h1 : c ≠ ' ' := fun he => by rw [he] at h; revert h; decide
  have h2 : c ≠ '\t' := fun he => by rw [he] at h; revert h; decide
  have h3 : c ≠ '\n' := fun he => by rw [he] at h; revert h; decide
  have h4 : c ≠ '\r' := fun he => by rw [he] at h; revert h; decide
  simp [isJsonWs, h1, h2, h3, h4]

lemma parseVal_intLit (g : Nat) (n : Int) (h0 : 0 ≤ n) (rest : List Char)
    (hrest : headIsDigit rest = false) :
    parseVal (g + 1) (intDigitsL n ++ rest) = some (Json.num n, rest) := by
  rw [intDigitsL, if_neg (by omega)]
  cases hnd : natDigits n.toNat with
  | nil => exact absurd hnd (natDigits_ne_nil _)
  | cons c cs =>
    have hcmem : c ∈ natToRevDigits n.toNat := by
      have hm : c ∈ natDigits n.toNat := by rw [hnd]; simp
      rw [natDigits] at hm
      exact List.mem_reverse.mp hm
    obtain ⟨k, hk, hck⟩ := natToRevDigits_digits _ c hcmem
    have hdv : digitVal? c = some k := by rw [hck]; exact digitVal?_digitChar k hk
    have hb := digitVal?_bounds hdv
    have hws : isJsonWs c = false := isJsonWs_false_of_ge (by omega)
    have hq : ¬(c = quoteChar) := char_ne_of_toNat (m := 34) (by omega) _ (by decide)
    have hbr : ¬(c = '{') := char_ne_of_toNat (m := 123) (by omega) _ (by decide)
    have hbk : ¬(c = '[') := char_ne_of_toNat (m := 91) (by omega) _ (by decide)
    have ht : ¬(c = 't') := char_ne_of_toNat (m := 116) (by omega) _ (by decide)
    have hf : ¬(c = 'f') := char_ne_of_toNat (m := 102) (by omega) _ (by decide)
    have hn : ¬(c = 'n') := char_ne_of_toNat (m := 110) (by omega) _ (by decide)
    have hm2 : ¬(c = '-') := char_ne_of_toNat (m := 45) (by omega) _ (by decide)
    simp only [List.cons_append]
    rw [parseVal.eq_def]
    simp only [skipWs_cons _ _ hws, if_neg hq, if_neg hbr, if_neg hbk, if_neg ht, if_neg hf,
      if_neg hn]
    rw [parseNumber.eq_def]
    simp only [if_neg hm2]
    rw [show c :: (cs ++ rest) = natDigits n.toNat ++ rest by rw [hnd]; simp]
    rw [parseNatNum_natDigits _ _ hrest]
    simp [Int.toNat_of_nonneg h0]

lemma parseMembers_last (f : Nat) (k : String) (v : Json) (X rest : List Char)
    (hval : parseVal f X = some (v, '}' :: rest)) :
    parseMembers (f + 1) (quoteChar :: (escBody k.data ++ quoteChar :: ':' :: X))
      = some (Json.obj [(k, v)], rest) := by
  rw [parseMembers.eq_def]
  simp [skipWs_quote, skipWs_colon, skipWs_rbrace, parseStrAux_escBody, hval,
    show String.mk k.data = k from rfl]

lemma parseMembers_cons (f : Nat) (k : String) (v : Json) (X rest' : List Char)
    (ms : List (String × Json)) (rest : List Char)
    (hval : parseVal f X = some (v, ',' :: rest'))
    (hrec : parseMembers f rest' = some (Json.obj ms, rest)) :
    parseMembers (f + 1) (quoteChar :: (escBody k.data ++ quoteChar :: ':' :: X))
      = some (Json.obj ((k, v) :: ms), rest) := by
  rw [parseMembers.eq_def]
  simp [skipWs_quote, skipWs_colon, skipWs_comma, parseStrAux_escBody, hval, hrec,
    show String.mk k.data = k from rfl]

lemma parseVal_assessment (g : Nat) (a : AppealAssessment) (h0 : 0 ≤ a.confidence_score)
    (rest : List Char) :
    parseVal (g + 5) (stringifyAssessmentL a ++ rest) = some (assessmentJson a, rest) := by
  have hb1 : ¬(('{' : Char) = quoteChar) := by decide
  have hb2 : ¬(quoteChar = '}') := by decide
  simp only [stringifyAssessmentL, assessmentMidL, List.cons_append, List.append_assoc,
    jsonStrLitL_append]
  rw [parseVal.eq_def]
  simp [skipWs_lbrace, skipWs_quote, hb1, hb2]
  exact parseMembers_cons _ _ _ _ _ _ _
    (parseVal_strLit _ _ _)
    (parseMembers_cons _ _ _ _ _ _ _
      (parseVal_intLit _ _ h0 _ rfl)
      (parseMembers_last _ _ _ _ _
        (parseVal_strLit _ _ _)))

lemma parseVal_assessment_of_le (f : Nat) (a : AppealAssessment) (h0 : 0 ≤ a.confidence_score)
    (rest : List Char) (hf : 5 ≤ f) :
    parseVal f (stringifyAssessmentL a ++ rest) = some (assessmentJson a, rest) := by
  obtain ⟨g, rfl⟩ : ∃ g, f = g + 5 := ⟨f - 5, by omega⟩
  exact parseVal_assessment g a h0 rest

lemma stringifyAssessmentL_length (a : AppealAssessment) :
    4 ≤ (stringifyAssessmentL a).length := by
  simp [stringifyAssessmentL, assessmentMidL, jsonStrLitL]
  omega

lemma jsonParseL_assessment (a : AppealAssessment) (h0 : 0 ≤ a.confidence_score) :
    jsonParseL (stringifyAssessmentL a) = some (assessmentJson a) := by
  have hp := parseVal_assessment_of_le ((stringifyAssessmentL a).length + 1) a h0 []
    (by have := stringifyAssessmentL_length a; omega)
  rw [List.append_nil] at hp
  rw [jsonParseL, hp]
  simp [skipWs]

lemma jsonParse_stringifyAssessment (a : AppealAssessment) (h0 : 0 ≤ a.confidence_score) :
    jsonParse (stringifyAssessment a) = some (assessmentJson a) :=
  jsonParseL_assessment a h0

lemma braceSpan_wrap (a : AppealAssessment) (p q : String)
    (hp : '{' ∉ p.data) (hq : '}' ∉ q.data) :
    braceSpan (p ++ stringifyAssessment a ++ q) = some (stringifyAssessment a) := by
  rw [braceSpan]
  have hdata : (p ++ stringifyAssessment a ++ q).data
      = p.data ++ '{' :: assessmentMidL a ++ '}' :: q.data := by
    simp [stringifyAssessment, stringifyAssessmentL, String.data_append]
  rw [hdata, braceSpanL_decompose _ _ _ hp hq]
  simp [stringifyAssessment, stringifyAssessmentL]

lemma validStructure_assessment (a : AppealAssessment) :
    validStructure (assessmentJson a)
      = ((a.appeal_strength != "") && (a.confidence_score != 0)
          && (a.reasoning_summary != "")) := rfl

/-! ### Helper lemmas shared by the claim theorems -/

lemma appealRecoverP_span (t s : String) (hspan : braceSpan t = some s) :
    appealRecoverP t = Except.ok
      (if validStructure ((jsonParse s).getD fallbackParse)
       then (jsonParse s).getD fallbackParse else fallbackStructure) := by
  simp only [appealRecoverP, hspan]

lemma validStructure_fallbackParse : validStructure fallbackParse = true := rfl

lemma validStructure_fallbackStructure : validStructure fallbackStructure = true := rfl

lemma jsOr_str_ne_null (o : Option Json) (s : String) : jsOr o (Json.str s) ≠ Json.null := by
  cases o with
  | none => simp [jsOr]
  | some v =>
    by_cases hv : truthy v = true
    · simp only [jsOr, hv, if_true]
      intro he
      rw [he] at hv
      simp [truthy] at hv
    · simp [jsOr, hv]

lemma jsGet_buildExtractData (d : Json) (k : String) (hk : k ∈ extractKeys) :
    jsGet (buildExtractData d) k = some (jsOr (jsGet d k) (Json.str "")) := by
  fin_cases hk <;> rfl

/-! ### Claim theorems -/

/-- Claim C6 (confirmed): for every input text containing a `{` before a
`}` — every such text decomposes as `p ++ "{" ++ m ++ "}" ++ q` with no
`{` in `p` and no `}` in `q` — the brace-scan recovery step of the
appeal handler selects exactly the greedy span from the first `{` to
the last `}` of the text; on `"a{b}c{d}e"` it selects `"{b}c{d}"`, not
the first balanced pair `"{b}"`. -/
theorem brace_scan_greedy_span (p q m : List Char) (hp : '{' ∉ p) (hq : '}' ∉ q) :
    braceSpanL (p ++ '{' :: m ++ '}' :: q) = some ('{' :: m ++ ['}'])
    ∧ braceSpan "a\x7bb\x7dc\x7bd\x7de" = some "\x7bb\x7dc\x7bd\x7d" :=
  ⟨braceSpanL_decompose p q m hp hq, rfl⟩

/-- Witness for C6 at a concrete decomposition. -/
theorem brace_scan_greedy_span_witness :
    braceSpanL ("x".data ++ '{' :: "ab".data ++ '}' :: "y".data)
      = some ('{' :: "ab".data ++ ['}'])
    ∧ braceSpan "a\x7bb\x7dc\x7bd\x7de" = some "\x7bb\x7dc\x7bd\x7d" :=
  brace_scan_greedy_span "x".data "y".data "ab".data (by decide) (by decide)

/-- Claim C2 (counterexample): a text with no `{...}` substring does NOT
produce the fallback object — the part_000 handler throws
`AI response format was invalid` instead, so the request fails. -/
theorem appeal_no_brace_fallback_cex :
    braceSpan "The appeal looks strong." = none
    ∧ appealRecoverP "The appeal looks strong."
        = Except.error "AI response format was invalid"
    ∧ appealRecoverP "The appeal looks strong." ≠ Except.ok fallbackParse := by
  refine ⟨rfl, rfl, ?_⟩
  rw [show appealRecoverP "The appeal looks strong."
      = Except.error "AI response format was invalid" from rfl]
  intro h
  exact Except.noConfusion h

/-- Claim C2 (amended): for every text whose brace-span match fails to
parse as JSON, the part_000 recoverer returns exactly the fixed
fallback object (appeal_strength "medium", confidence_score 50, fixed
reasoning_summary); a text with NO brace span instead makes the handler
throw (see the counterexample). -/
theorem appeal_parse_failure_fallback (t s : String)
    (hspan : braceSpan t = some s) (hfail : jsonParse s = none) :
    appealRecoverP t = Except.ok fallbackParse := by
  rw [appealRecoverP_span t s hspan, hfail]
  simp [validStructure_fallbackParse]

/-- Witness for C2's amended theorem. -/
theorem appeal_parse_failure_fallback_witness :
    braceSpan "\x7bnot json\x7d" = some "\x7bnot json\x7d"
    ∧ jsonParse "\x7bnot json\x7d" = none
    ∧ appealRecoverP "\x7bnot json\x7d" = Except.ok fallbackParse :=
  ⟨rfl, rfl, appeal_parse_failure_fallback _ _ rfl rfl⟩

/-- Claim C1 (counterexample): the appeal-assessment recovery path CAN
raise past its boundary: on an upstream text with no brace pair the
part_000 handler returns a 500 error response caused by recovery
itself, not a parsed or fallback object. -/
theorem appeal_recovery_raises_cex :
    appealHandlerP ⟨some (Json.obj []), some (Json.str "Signage was unclear")⟩
        (fun _ => "I cannot assess this appeal.")
      = HttpResult.serverError (Json.obj
          [("error", Json.str "Failed to analyze appeal chances"),
           ("details", Json.str "AI response format was invalid")]) := rfl

/-- Claim C1 (amended): for every upstream text that does contain a
`{...}` span, the part_000 recovery never raises — the handler gets
either the parsed, structurally valid object or one of the two fixed
fallback objects. -/
theorem appeal_recovery_no_raise (t s : String) (hspan : braceSpan t = some s) :
    (∃ v, jsonParse s = some v ∧ validStructure v = true
      ∧ appealRecoverP t = Except.ok v)
    ∨ appealRecoverP t = Except.ok fallbackParse
    ∨ appealRecoverP t = Except.ok fallbackStructure := by
  rw [appealRecoverP_span t s hspan]
  cases hp : jsonParse s with
  | none =>
    right; left
    simp [validStructure_fallbackParse]
  | some v =>
    by_cases hv : validStructure v = true
    · left
      exact ⟨v, rfl, hv, by simp [hv]⟩
    · right; right
      simp only [Option.getD_some]
      rw [if_neg (by simp [hv])]

/-- Witness for C1's amended theorem. -/
theorem appeal_recovery_no_raise_witness :
    (∃ v, jsonParse "\x7b\"a\":1\x7d" = some v ∧ validStructure v = true
      ∧ appealRecoverP "\x7b\"a\":1\x7d" = Except.ok v)
    ∨ appealRecoverP "\x7b\"a\":1\x7d" = Except.ok fallbackParse
    ∨ appealRecoverP "\x7b\"a\":1\x7d" = Except.ok fallbackStructure :=
  appeal_recovery_no_raise _ _ rfl

/-- Claim C5 (counterexample): in the `server.js` revision, a text that
parses to a JSON object lacking all three required keys does NOT get
the fallback object — the handler throws
`Invalid response structure from AI` and the request fails with a 500
response. -/
theorem appeal_missing_keys_throws_cex :
    jsonParse "\x7b\x7d" = some (Json.obj [])
    ∧ appealRecoverS "\x7b\x7d" = Except.error "Invalid response structure from AI"
    ∧ appealRecoverS "\x7b\x7d" ≠ Except.ok fallbackServer := by
  refine ⟨rfl, rfl, ?_⟩
  rw [show appealRecoverS "\x7b\x7d"
      = Except.error "Invalid response structure from AI" from rfl]
  intro h
  exact Except.noConfusion h

/-- Claim C5 (amended): in the part_000 revision, every text whose
brace span parses to an object lacking one or more of the three
required keys yields the fixed structure fallback instead of an error;
in the server.js revision the handler instead throws (see the
counterexample). -/
theorem appeal_missing_keys_fallback (t s : String) (o : Json)
    (hspan : braceSpan t = some s) (hparse : jsonParse s = some o)
    (hmiss : jsGet o "appeal_strength" = none ∨ jsGet o "confidence_score" = none
      ∨ jsGet o "reasoning_summary" = none) :
    appealRecoverP t = Except.ok fallbackStructure := by
  rw [appealRecoverP_span t s hspan, hparse]
  have hv : validStructure o = false := by
    rcases hmiss with h | h | h <;> simp [validStructure, h, jsTruthyOpt]
  simp [hv]

/-- Witness for C5's amended theorem. -/
theorem appeal_missing_keys_fallback_witness :
    appealRecoverP "\x7b\"appeal_strength\":\"strong\"\x7d" = Except.ok fallbackStructure :=
  appeal_missing_keys_fallback _ _ (Json.obj [("appeal_strength", Json.str "strong")])
    rfl rfl (Or.inr (Or.inl rfl))

/-- Claim C10 (confirmed): a parsed assessment object whose required
field is present but falsy — confidence_score 0, or an empty
appeal_strength or reasoning_summary — fails the structure validation
exactly as a missing key does, is replaced by the structure fallback,
and is never returned to the caller as-is. -/
theorem appeal_falsy_fields_invalid (st sm : String) (n : Int) (t s : String)
    (hfalsy : n = 0 ∨ st = "" ∨ sm = "")
    (hspan : braceSpan t = some s)
    (hparse : jsonParse s = some (assessmentJson ⟨st, n, sm⟩)) :
    validStructure (assessmentJson ⟨st, n, sm⟩) = false
    ∧ appealRecoverP t = Except.ok fallbackStructure
    ∧ assessmentJson ⟨st, n, sm⟩ ≠ fallbackStructure := by
  have hv : validStructure (assessmentJson ⟨st, n, sm⟩) = false := by
    rw [validStructure_assessment]
    rcases hfalsy with h | h | h <;> simp [h]
  refine ⟨hv, ?_, ?_⟩
  · rw [appealRecoverP_span t s hspan, hparse]
    simp [hv]
  · intro he
    rw [he, validStructure_fallbackStructure] at hv
    exact Bool.noConfusion hv

/-- Witness for C10 at confidence_score 0. -/
theorem appeal_falsy_fields_invalid_witness :
    validStructure (assessmentJson ⟨"medium", 0, "Strong grounds."⟩) = false
    ∧ appealRecoverP ("" ++ stringifyAssessment ⟨"medium", 0, "Strong grounds."⟩ ++ "")
        = Except.ok fallbackStructure
    ∧ assessmentJson ⟨"medium", 0, "Strong grounds."⟩ ≠ fallbackStructure :=
  appeal_falsy_fields_invalid "medium" "Strong grounds." 0 _ _
    (Or.inl rfl)
    (braceSpan_wrap _ "" "" (by decide) (by decide))
    (jsonParse_stringifyAssessment _ (by decide))

/-- Claim C3 (counterexample): recovery of the serialization of a valid
AppealAssessment is NOT always deep-equal to it.  With
`confidence_score 0` (valid per the data model: present, non-null, in
range) the parsed object fails the truthiness-based validation and is
replaced by the structure fallback; and with leading prose containing a
`{`, the greedy span fails to parse and the parse fallback is returned
instead. -/
theorem appeal_roundtrip_cex :
    ValidAssessment ⟨"medium", 0, "Clear case."⟩
    ∧ appealRecoverP ("" ++ stringifyAssessment ⟨"medium", 0, "Clear case."⟩ ++ "")
        = Except.ok fallbackStructure
    ∧ fallbackStructure ≠ assessmentJson ⟨"medium", 0, "Clear case."⟩
    ∧ ValidAssessment ⟨"strong", 80, "Signage missing."⟩
    ∧ appealRecoverP ("\x7b\x7d " ++ stringifyAssessment ⟨"strong", 80, "Signage missing."⟩)
        = Except.ok fallbackParse
    ∧ fallbackParse ≠ assessmentJson ⟨"strong", 80, "Signage missing."⟩ := by
  refine ⟨⟨Or.inr (Or.inl rfl), by decide, by decide, by decide⟩, ?_, ?_,
    ⟨Or.inl rfl, by decide, by decide, by decide⟩, ?_, ?_⟩
  · rw [appealRecoverP_span _ _
      (braceSpan_wrap ⟨"medium", 0, "Clear case."⟩ "" "" (by decide) (by decide))]
    rw [jsonParse_stringifyAssessment _ (by decide)]
    simp [validStructure_assessment]
  · simp [fallbackStructure, assessmentJson]
  · have hspan3 : braceSpan ("\x7b\x7d " ++ stringifyAssessment ⟨"strong", 80, "Signage missing."⟩)
        = some "\x7b\x7d \x7b\"appeal_strength\":\"strong\",\"confidence_score\":80,\"reasoning_summary\":\"Signage missing.\"\x7d" := by
      decide
    have hparse3 : jsonParse "\x7b\x7d \x7b\"appeal_strength\":\"strong\",\"confidence_score\":80,\"reasoning_summary\":\"Signage missing.\"\x7d" = none :=
      Option.isNone_iff_eq_none.mp (by decide)
    rw [appealRecoverP_span _ _ hspan3, hparse3]
    simp [validStructure_fallbackParse]
  · simp [fallbackParse, assessmentJson]

/-- Claim C3 (amended): for every valid AppealAssessment `a` whose
`confidence_score` is nonzero, recovering the serialization of `a`
wrapped in markdown fences or any leading prose without `{` and
trailing prose without `}` yields an object deep-equal to `a`. -/
theorem appeal_roundtrip (a : AppealAssessment) (p q : String)
    (hval : ValidAssessment a) (hnz : a.confidence_score ≠ 0)
    (hp : '{' ∉ p.data) (hq : '}' ∉ q.data) :
    appealRecoverP (p ++ stringifyAssessment a ++ q) = Except.ok (assessmentJson a) := by
  rw [appealRecoverP_span _ _ (braceSpan_wrap a p q hp hq)]
  rw [jsonParse_stringifyAssessment a hval.2.1]
  have hv : validStructure (assessmentJson a) = true := by
    rw [validStructure_assessment]
    obtain ⟨hs, h0, h100, hr⟩ := hval
    rcases hs with h | h | h <;> simp [h, bne_iff_ne, hnz, hr]
  simp [hv]

/-- Witness for C3's amended theorem, with markdown fences as the
wrapping prose. -/
theorem appeal_roundtrip_witness :
    appealRecoverP ("```json\n"
        ++ stringifyAssessment ⟨"strong", 80, "Evidence is compelling."⟩ ++ "\n```")
      = Except.ok (assessmentJson ⟨"strong", 80, "Evidence is compelling."⟩) :=
  appeal_roundtrip ⟨"strong", 80, "Evidence is compelling."⟩ "```json\n" "\n```"
    ⟨Or.inl rfl, by decide, by decide, by decide⟩ (by decide) (by decide) (by decide)

/-- Claim C4 (counterexample): the recoverers do not implement the
claimed fence-strip → direct-parse → brace-scan order.  On the
field-extraction path there is no brace-scan step at all: a valid
object wrapped in prose fails there, while the spec's ordered algorithm
recovers it. -/
theorem recover_order_cex :
    extractHandlerParse "Here is the result: \x7b\"fineAmount\":\"60\"\x7d" = none
    ∧ specRecoverJson "Here is the result: \x7b\"fineAmount\":\"60\"\x7d"
        = some (Json.obj [("fineAmount", Json.str "60")]) := ⟨rfl, rfl⟩

/-- Claim C4 (amended): the two call sites implement different strategy
subsets.  The field-extraction path is exactly fence-strip followed by
direct parse (no brace-scan recovery).  The appeal path (part_000)
applies the brace-scan extraction immediately: with no brace span it
throws, and with a span it returns the parse of the span with its
fallbacks, never attempting a fence strip or a full-text direct parse
first. -/
theorem recover_order_amended :
    (∀ t : String, extractHandlerParse t = jsonParse (stripFences t))
    ∧ (∀ t : String, braceSpan t = none →
        appealRecoverP t = Except.error "AI response format was invalid")
    ∧ (∀ t s : String, braceSpan t = some s →
        appealRecoverP t = Except.ok
          (if validStructure ((jsonParse s).getD fallbackParse)
           then (jsonParse s).getD fallbackParse else fallbackStructure)) := by
  refine ⟨fun t => rfl, fun t h => ?_, fun t s h => appealRecoverP_span t s h⟩
  simp only [appealRecoverP, h]

/-- Witness for C4's amended theorem. -/
theorem recover_order_amended_witness :
    extractHandlerParse "\x7b\"a\":1\x7d" = jsonParse (stripFences "\x7b\"a\":1\x7d")
    ∧ appealRecoverP "no json here" = Except.error "AI response format was invalid"
    ∧ appealRecoverP "\x7b\x7d" = Except.ok
        (if validStructure ((jsonParse "\x7b\x7d").getD fallbackParse)
         then (jsonParse "\x7b\x7d").getD fallbackParse else fallbackStructure) :=
  ⟨recover_order_amended.1 _, recover_order_amended.2.1 _ rfl,
   recover_order_amended.2.2 _ _ rfl⟩

/-- Claim C7 (confirmed): the part_000 normaliser maps a string appeal
reason to category "General", the input string verbatim as selected
reason, and "None provided" as notes; on structured objects it extracts
`category` (default "General"), prefers `selected_reason` over
`reason` (default "Unknown"), and prefers `user_note` over
`personal_note` (default "None provided"), each field independently. -/
theorem normalizer_shapes (s : String) (kvs : List (String × Json)) :
    normalizeAppealReason (Json.str s)
      = (Json.str "General", Json.str s, Json.str "None provided")
    ∧ (jsGet (Json.obj kvs) "category" = none →
        (normalizeAppealReason (Json.obj kvs)).1 = Json.str "General")
    ∧ (∀ v, jsGet (Json.obj kvs) "category" = some v → truthy v = true →
        (normalizeAppealReason (Json.obj kvs)).1 = v)
    ∧ (∀ v, jsGet (Json.obj kvs) "selected_reason" = some v → truthy v = true →
        (normalizeAppealReason (Json.obj kvs)).2.1 = v)
    ∧ (∀ w, jsGet (Json.obj kvs) "selected_reason" = none →
        jsGet (Json.obj kvs) "reason" = some w → truthy w = true →
        (normalizeAppealReason (Json.obj kvs)).2.1 = w)
    ∧ (jsGet (Json.obj kvs) "selected_reason" = none →
        jsGet (Json.obj kvs) "reason" = none →
        (normalizeAppealReason (Json.obj kvs)).2.1 = Json.str "Unknown")
    ∧ (∀ v, jsGet (Json.obj kvs) "user_note" = some v → truthy v = true →
        (normalizeAppealReason (Json.obj kvs)).2.2 = v)
    ∧ (∀ w, jsGet (Json.obj kvs) "user_note" = none →
        jsGet (Json.obj kvs) "personal_note" = some w → truthy w = true →
        (normalizeAppealReason (Json.obj kvs)).2.2 = w)
    ∧ (jsGet (Json.obj kvs) "user_note" = none →
        jsGet (Json.obj kvs) "personal_note" = none →
        (normalizeAppealReason (Json.obj kvs)).2.2 = Json.str "None provided") := by
  refine ⟨rfl, ?_, ?_, ?_, ?_, ?_, ?_, ?_, ?_⟩
  · intro h
    simp [normalizeAppealReason, typeofIsString, typeofIsObject, jsOr, h]
  · intro v h hv
    simp [normalizeAppealReason, typeofIsString, typeofIsObject, jsOr, h, hv]
  · intro v h hv
    simp [normalizeAppealReason, typeofIsString, typeofIsObject, jsOr, h, hv]
  · intro w h hw hv
    simp [normalizeAppealReason, typeofIsString, typeofIsObject, jsOr, h, hw, hv]
  · intro h hw
    simp [normalizeAppealReason, typeofIsString, typeofIsObject, jsOr, h, hw]
  · intro v h hv
    simp [normalizeAppealReason, typeofIsString, typeofIsObject, jsOr, h, hv]
  · intro w h hw hv
    simp [normalizeAppealReason, typeofIsString, typeofIsObject, jsOr, h, hw, hv]
  · intro h hw
    simp [normalizeAppealReason, typeofIsString, typeofIsObject, jsOr, h, hw]

/-- Witness for C7: a plain-string reason, and an object with `reason`
but no `selected_reason` resolving to the `reason` value. -/
theorem normalizer_shapes_witness :
    normalizeAppealReason (Json.str "PCN wrongly issued")
      = (Json.str "General", Json.str "PCN wrongly issued", Json.str "None provided")
    ∧ (normalizeAppealReason
        (Json.obj [("category", Json.str "X"), ("reason", Json.str "Y")])).2.1
      = Json.str "Y" := by
  have h := normalizer_shapes "PCN wrongly issued"
    [("category", Json.str "X"), ("reason", Json.str "Y")]
  exact ⟨h.1, h.2.2.2.2.1 (Json.str "Y") rfl rfl rfl⟩

/-- Claim C8 (confirmed): on the field-extraction path every missing
key of ExtractedFineData is independently defaulted to the empty string
— never null — in the response data, each output field depends only on
its own input key, and parse failure yields an error response, not a
substituted fallback object. -/
theorem extract_missing_key_defaults (d : Json) (k : String) (hk : k ∈ extractKeys) :
    (jsGet d k = none → jsGet (buildExtractData d) k = some (Json.str ""))
    ∧ jsGet (buildExtractData d) k ≠ some Json.null
    ∧ (∀ d₂ : Json, jsGet d₂ k = jsGet d k →
        jsGet (buildExtractData d₂) k = jsGet (buildExtractData d) k)
    ∧ (∀ t : String, extractHandlerParse t = none →
        extractRecover t = Except.error "Failed to extract fine data") := by
  refine ⟨?_, ?_, ?_, ?_⟩
  · intro h
    rw [jsGet_buildExtractData d k hk, h]
    rfl
  · rw [jsGet_buildExtractData d k hk]
    intro hc
    injection hc with hc'
    exact jsOr_str_ne_null _ _ hc'
  · intro d₂ he
    rw [jsGet_buildExtractData d k hk, jsGet_buildExtractData d₂ k hk, he]
  · intro t ht
    simp [extractRecover, ht]

/-- Witness for C8 on the empty object and a non-JSON upstream text. -/
theorem extract_missing_key_defaults_witness :
    jsGet (buildExtractData (Json.obj [])) "carRegistration" = some (Json.str "")
    ∧ extractRecover "gibberish" = Except.error "Failed to extract fine data" :=
  ⟨(extract_missing_key_defaults (Json.obj []) "carRegistration" (by decide)).1 rfl,
   (extract_missing_key_defaults (Json.obj []) "carRegistration" (by decide)).2.2.2
     "gibberish" rfl⟩

/-- Claim C9 (confirmed): a request to the appeal-check handler with
`fineDetails` or `appealReason` absent yields the 400 response with the
descriptive message, and the result does not depend on the upstream
provider — the completion function is never consulted. -/
theorem appeal_check_missing_field_400 (fd ar : Option Json) (u₁ u₂ : String → String)
    (h : fd = none ∨ ar = none) :
    appealHandlerP ⟨fd, ar⟩ u₁ = HttpResult.badRequest (Json.obj
      [("error",
        Json.str "Missing required fields: fineDetails and appealReason are required")])
    ∧ appealHandlerP ⟨fd, ar⟩ u₁ = appealHandlerP ⟨fd, ar⟩ u₂ := by
  have hguard : (!(jsTruthyOpt fd) || !(jsTruthyOpt ar)) = true := by
    rcases h with rfl | rfl <;> simp [jsTruthyOpt]
  constructor <;> simp [appealHandlerP, hguard]

/-- Witness for C9 with `fineDetails` absent and two distinct upstream
oracles. -/
theorem appeal_check_missing_field_400_witness :
    appealHandlerP ⟨none, some (Json.str "Medical emergency")⟩ (fun _ => "\x7b\x7d")
      = HttpResult.badRequest (Json.obj
        [("error",
          Json.str "Missing required fields: fineDetails and appealReason are required")])
    ∧ appealHandlerP ⟨none, some (Json.str "Medical emergency")⟩ (fun _ => "\x7b\x7d")
      = appealHandlerP ⟨none, some (Json.str "Medical emergency")⟩
          (fun _ => "a different upstream reply") :=
  appeal_check_missing_field_400 none (some (Json.str "Medical emergency")) _ _ (Or.inl rfl)
